import Mathlib

/-
Verification of the Pseudo3D_ES6 raycasting renderer.

Shallow embedding of the renderer core (renderer.js, ray.js, screen.js,
color.js, scene.js, orientation.js, vector.js) over the rationals.
JavaScript numbers are modelled as rationals; the value Infinity, which the
source produces and compares against in the DDA and in the depth buffer, is
modelled by the two-constructor type JQ below.  Pixel stores go through the
clamping of a Uint8ClampedArray.  Real-number square roots (only needed by
Vector.normalize) are modelled over the reals in a separate section.
-/

set_option maxHeartbeats 1000000

namespace Pseudo3d

/-- JS numeric values that are either a finite number or +Infinity.  The DDA
side distances, the depth buffer entries and the camera maxBrightness default
are the only places the embedded source holds Infinity.  NaN never arises on
the reachable paths of the embedded code (noted where relevant). -/
inductive JQ where
  | fin (q : ℚ)
  | inf
deriving DecidableEq

/-- JS strict comparison a < b on finite-or-Infinity values. -/
def JQ.blt : JQ → JQ → Bool
  | .inf, _ => false
  | .fin _, .inf => true
  | .fin a, .fin b => decide (a < b)

/-- JS comparison a <= b on finite-or-Infinity values. -/
def JQ.ble : JQ → JQ → Bool
  | .inf, .inf => true
  | .inf, .fin _ => false
  | .fin _, .inf => true
  | .fin a, .fin b => decide (a ≤ b)

/-- JS addition on finite-or-Infinity values (x + Infinity = Infinity). -/
def JQ.add : JQ → JQ → JQ
  | .inf, _ => .inf
  | .fin _, .inf => .inf
  | .fin a, .fin b => .fin (a + b)

/-- JS subtraction a - b.  The source only subtracts a deltaDist from the
matching sideDist, and a sideDist is Infinity exactly when its deltaDist is,
so the Infinity-minus-Infinity (NaN) corner is modelled by the unreachable
junk value inf. -/
def JQ.sub : JQ → JQ → JQ
  | .inf, _ => .inf
  | .fin _, .inf => .inf
  | .fin a, .fin b => .fin (a - b)

/-- Multiplication of a finite factor with a finite-or-Infinity value.  The
source multiplies the fractional cell offset by deltaDist; when deltaDist is
Infinity that offset is strictly positive (see rayInit), so JS yields
Infinity, never the 0 * Infinity NaN. -/
def JQ.scale (q : ℚ) : JQ → JQ
  | .inf => .inf
  | .fin x => .fin (q * x)

/-- Finite part of a finite-or-Infinity value; junk 0 on Infinity, used only
where the source produces a value that no drawn pixel observes. -/
def JQ.toQ : JQ → ℚ
  | .fin q => q
  | .inf => 0

/-- Division of a finite number by a finite-or-Infinity value.  JS gives
x / Infinity = 0, which the inf case mirrors exactly; division by a finite 0
(JS Infinity) is junk 0, unreachable from the embedded call sites. -/
def jqDivQ (a : ℚ) : JQ → ℚ
  | .inf => 0
  | .fin q => a / q

/-- Math.abs(rayLength / d) from ray.js: Infinity when the direction
component d is 0 (JS division by zero), |rayLength / d| otherwise.  The
rayLength = 0 with d = 0 NaN corner is outside every embedded call site
(the engine always passes rayLength 1). -/
def jsAbsDiv (rayLength d : ℚ) : JQ :=
  if d = 0 then .inf else .fin |rayLength / d|

/-- Truncation toward zero, as used by the JS remainder operator. -/
def jsTrunc (q : ℚ) : ℤ :=
  if q < 0 then -⌊(-q : ℚ)⌋ else ⌊q⌋

/-- The JS remainder a % b (sign of the dividend, truncated division).  JS
gives NaN for b = 0; the junk value 0 here is only reachable when a floor or
ceiling is configured with cellWidth or cellHeight 0. -/
def jsMod (a b : ℚ) : ℚ :=
  if b = 0 then 0 else a - b * jsTrunc (a / b)

/-- Uint8ClampedArray store of an integral value: clamp into [0, 255]. -/
def clampByte (z : ℤ) : ℕ :=
  (max 0 (min z 255)).toNat

/-- Color from color.js.  Channels are JS numbers (validated integers). -/
structure Color where
  red : ℚ
  green : ℚ
  blue : ℚ
  alpha : ℚ
deriving DecidableEq

/-- Number.isInteger(q) && q >= 0 && q <= 255, the per-argument check of the
Color constructor. -/
def isInt255 (q : ℚ) : Bool :=
  q.den = 1 && decide (0 ≤ q) && decide (q ≤ 255)

/-- The Color constructor from color.js: throws (none) unless every argument
is an integer in [0, 255]; otherwise builds the object with the source's
own field assignments (this.red = r; this.blue = g; this.green = b;
this.alpha = a). -/
def colorNew (r g b a : ℚ) : Option Color :=
  if isInt255 r && isInt255 g && isInt255 b && isInt255 a then
    some { red := r, blue := g, green := b, alpha := a }
  else
    none

/-- Per-channel lighting factors returned by calculateLightingScalar. -/
structure LightScalar where
  r : ℚ
  g : ℚ
  b : ℚ
deriving DecidableEq

/-- Camera lighting settings; maxBrightness defaults to Infinity in
camera.js, hence the finite-or-Infinity type. -/
structure CameraLighting where
  brightness : ℚ
  maxBrightness : JQ
  color : Color
deriving DecidableEq

/-- Scene lighting settings from scene.js (checkLighting). -/
structure SceneLighting where
  enabled : Bool
  ambientLight : ℚ
  sideShade : ℚ
deriving DecidableEq

/-- Camera state as read by the renderer: orientation position and direction,
camera plane, focal length, pitch (a validated integer) and lighting. -/
structure Camera where
  posX : ℚ
  posY : ℚ
  posZ : ℚ
  dirX : ℚ
  dirY : ℚ
  planeX : ℚ
  planeY : ℚ
  focalLength : ℚ
  pitch : ℤ
  lighting : CameraLighting
deriving DecidableEq

/-- calculateLightingScalar from renderer.js.  side is the optional fourth
argument: the wall pass supplies the ray side, the entity and floor passes
omit it (none, JS undefined, for which side === 1 is false). -/
def calculateLightingScalar (scene : SceneLighting) (camera : Camera)
    (depth : ℚ) (side : Option ℤ) : LightScalar :=
  if scene.enabled = false then ⟨1, 1, 1⟩ else
  let l0 : ℚ := camera.lighting.brightness / (depth * camera.focalLength)
  let l1 : ℚ :=
    match camera.lighting.maxBrightness with
    | .inf => l0
    | .fin m => if l0 > m then m else l0
  let l2 : ℚ := if l1 < scene.ambientLight then scene.ambientLight else l1
  let l3 : ℚ := if side = some 1 then l2 - scene.sideShade else l2
  ⟨l3 * camera.lighting.color.red / 255,
   l3 * camera.lighting.color.green / 255,
   l3 * camera.lighting.color.blue / 255⟩

/-- Minimum of a finite value and a finite-or-Infinity bound (used to restate
the maxBrightness clamp). -/
def jqMin (q : ℚ) : JQ → ℚ
  | .inf => q
  | .fin m => min q m

/-- Texture from texture.js as the renderer consumes it: dimensions, the
RGBA byte array, the load flag, and the fallback color shown while
unloaded. -/
structure Texture where
  width : ℕ
  height : ℕ
  pixels : List ℕ
  hasLoaded : Bool
  temporaryColor : Color
deriving DecidableEq

/-- An appearance is a Color or a Texture (the source branches with
instanceof). -/
inductive Appearance where
  | color (c : Color)
  | tex (t : Texture)
deriving DecidableEq

/-- Screen state from screen.js as the renderer uses it: render dimensions,
aspect ratio (renderWidth / renderHeight, stored by the constructor), the
RGBA pixel array and the depth buffer (Infinity after clear()). -/
structure Screen where
  renderWidth : ℕ
  renderHeight : ℕ
  aspect : ℚ
  pixels : List ℕ
  depthBuffer : List JQ
deriving DecidableEq

/-- JS read texture.pixels[i] for a possibly negative index: undefined (none)
outside the array. -/
def texPix (t : Texture) (i : ℤ) : Option ℕ :=
  if 0 ≤ i then t.pixels.get? i.toNat else none

/-- Store one RGBA pixel at pixel index i (byte index 4 i), each channel
through the Uint8ClampedArray clamp. -/
def setPixelRGBA (px : List ℕ) (i : ℕ) (r g b a : ℤ) : List ℕ :=
  ((((px.set (i * 4) (clampByte r)).set (i * 4 + 1) (clampByte g)).set
      (i * 4 + 2) (clampByte b)).set (i * 4 + 3) (clampByte a))

/-- Loop body of drawColoredColumn (renderer.js): one y of the column.
The depth test skips the pixel when depth is truthy (nonzero) and the stored
depth is strictly smaller; otherwise the lit color is written and the depth
buffer updated. -/
def drawColoredColumnPixel (screen : Screen) (x : ℕ) (color : Color)
    (depth : ℚ) (lighting : LightScalar) (y : ℕ) : Screen :=
  let index := x + y * screen.renderWidth
  if depth ≠ 0 ∧ JQ.blt (screen.depthBuffer.getD index JQ.inf) (JQ.fin depth) = true then
    screen
  else
    { screen with
      pixels := setPixelRGBA screen.pixels index
        ⌊color.red * lighting.r⌋
        ⌊color.green * lighting.g⌋
        ⌊color.blue * lighting.b⌋
        255,
      depthBuffer := screen.depthBuffer.set index (JQ.fin depth) }

/-- drawColoredColumn from renderer.js: clip [startY, endY) to the screen
height and run the per-pixel body down the column. -/
def drawColoredColumn (screen : Screen) (x : ℕ) (color : Color)
    (startY endY : ℤ) (depth : ℚ) (lighting : LightScalar) : Screen :=
  let s : ℤ := if startY < 0 then 0 else startY
  let e : ℤ := if endY > (screen.renderHeight : ℤ) then (screen.renderHeight : ℤ) else endY
  (List.range' s.toNat (e - s).toNat).foldl
    (fun scr y => drawColoredColumnPixel scr x color depth lighting y) screen

/-- Loop body of drawTexturedColumn (renderer.js): one y of the column,
threading the texture y position.  Skips (still stepping texPosY) when the
depth test fails or the texel is not fully opaque; otherwise writes the lit
texel and the depth. -/
def drawTexturedColumnPixel (x : ℕ) (texture : Texture) (texX : ℤ)
    (depth : ℚ) (lighting : LightScalar) (step : ℚ)
    (st : Screen × ℚ) (y : ℕ) : Screen × ℚ :=
  let screen := st.1
  let texPosY := st.2
  let index := x + y * screen.renderWidth
  if depth ≠ 0 ∧ JQ.ble (screen.depthBuffer.getD index JQ.inf) (JQ.fin depth) = true then
    (screen, texPosY + step)
  else
    let texY : ℤ := ⌊texPosY⌋
    let texIndex : ℤ := (texX + texY * texture.width) * 4
    if texPix texture (texIndex + 3) ≠ some 255 then
      (screen, texPosY + step)
    else
      ({ screen with
         pixels := setPixelRGBA screen.pixels index
           ⌊((texPix texture texIndex).getD 0 : ℚ) * lighting.r⌋
           ⌊((texPix texture (texIndex + 1)).getD 0 : ℚ) * lighting.g⌋
           ⌊((texPix texture (texIndex + 2)).getD 0 : ℚ) * lighting.b⌋
           255,
         depthBuffer := screen.depthBuffer.set index (JQ.fin depth) },
       texPosY + step)

/-- drawTexturedColumn from renderer.js: texture step from the unclipped
extent, initial texPosY offset when the column starts above the screen,
clip, then the per-pixel body down the column.  The division for step is by
zero only when the clipped loop below is empty, so its junk value is never
observed. -/
def drawTexturedColumn (screen : Screen) (x : ℕ) (texture : Texture)
    (texX : ℤ) (startY endY : ℤ) (depth : ℚ) (lighting : LightScalar) : Screen :=
  let step : ℚ := (texture.height : ℚ) / ((endY : ℚ) - (startY : ℚ))
  let texPosY0 : ℚ := if startY < 0 then ((-startY : ℤ) : ℚ) * step else 0
  let s : ℤ := if startY < 0 then 0 else startY
  let e : ℤ := if endY > (screen.renderHeight : ℤ) then (screen.renderHeight : ℤ) else endY
  ((List.range' s.toNat (e - s).toNat).foldl
    (drawTexturedColumnPixel x texture texX depth lighting step)
    (screen, texPosY0)).1

/-- worldMap as the DDA consumes it.  Scene validation (scene.js,
checkWorldMap) guarantees data.length = width * height, so the getD default
in the cast loop is never taken on validated scenes.  cellInfo is only read
by the wall pass, which no claim exercises, and is omitted. -/
structure WorldMap where
  width : ℕ
  height : ℕ
  data : List ℕ
deriving DecidableEq

/-- Floor plane settings from scene.js (checkFloorCeiling). -/
structure FloorCfg where
  enabled : Bool
  appearance : Appearance
  cellWidth : ℚ
  cellHeight : ℚ
deriving DecidableEq

/-- Ceiling plane settings from scene.js; height is the world-space position
of the ceiling plane. -/
structure CeilingCfg where
  enabled : Bool
  appearance : Appearance
  cellWidth : ℚ
  cellHeight : ℚ
  height : ℚ
deriving DecidableEq

/-- Skybox settings from scene.js (checkSkybox). -/
structure SkyboxCfg where
  enabled : Bool
  appearance : Appearance
deriving DecidableEq

/-- A sprite entity as the entity pass reads it: orientation position, draw
size and appearance. -/
structure Entity where
  posX : ℚ
  posY : ℚ
  posZ : ℚ
  sizeX : ℚ
  sizeY : ℚ
  appearance : Appearance
deriving DecidableEq

/-- gameObject sub config: the entity list. -/
structure GameObject where
  entities : List Entity
deriving DecidableEq

/-- Scene as the renderer reads it. -/
structure Scene where
  worldMap : WorldMap
  floor : FloorCfg
  ceiling : CeilingCfg
  skybox : SkyboxCfg
  gameObject : GameObject
  lighting : SceneLighting
deriving DecidableEq

/-- Mutable state of a Ray (ray.js). -/
structure RayState where
  mapX : ℤ
  mapY : ℤ
  stepX : ℤ
  stepY : ℤ
  deltaDistX : JQ
  deltaDistY : JQ
  sideDistX : JQ
  sideDistY : JQ
  side : ℕ
  face : ℕ
  hit : ℕ
  distance : JQ
deriving DecidableEq

/-- Ray.init from ray.js: cell coordinates, per-axis deltas, step directions,
initial side distances, initial side and face, hit 0, distance 0.  On the
branch where a deltaDist is Infinity (zero direction component) the
multiplied cell offset is strictly positive, because the floor of the start
coordinate is taken on the other branch only when the direction is negative
and hence nonzero; so JQ.scale matches the JS product. -/
def rayInit (startX startY dirX dirY rayLength : ℚ) : RayState :=
  let mapX : ℤ := ⌊startX⌋
  let mapY : ℤ := ⌊startY⌋
  let deltaDistX := jsAbsDiv rayLength dirX
  let deltaDistY := jsAbsDiv rayLength dirY
  let stepX : ℤ := if dirX < 0 then -1 else 1
  let sideDistX : JQ :=
    if dirX < 0 then JQ.scale (startX - mapX) deltaDistX
    else JQ.scale ((mapX : ℚ) + 1 - startX) deltaDistX
  let stepY : ℤ := if dirY < 0 then -1 else 1
  let sideDistY : JQ :=
    if dirY < 0 then JQ.scale (startY - mapY) deltaDistY
    else JQ.scale ((mapY : ℚ) + 1 - startY) deltaDistY
  let side : ℕ := if JQ.blt sideDistY sideDistX then 1 else 0
  let face : ℕ :=
    if side = 0 then (if stepX < 0 then 3 else 1)
    else (if stepY < 0 then 0 else 2)
  { mapX := mapX, mapY := mapY, stepX := stepX, stepY := stepY,
    deltaDistX := deltaDistX, deltaDistY := deltaDistY,
    sideDistX := sideDistX, sideDistY := sideDistY,
    side := side, face := face, hit := 0, distance := JQ.fin 0 }

/-- The post-loop distance and face computation of Ray.cast. -/
def castFinish (s : RayState) : RayState :=
  if s.side = 0 then
    { s with distance := JQ.sub s.sideDistX s.deltaDistX,
             face := if s.stepX < 0 then 3 else 1 }
  else
    { s with distance := JQ.sub s.sideDistY s.deltaDistY,
             face := if s.stepY < 0 then 0 else 2 }

/-- The increment step at the top of the DDA loop body: advance along the
axis with the smaller cumulative side distance (the source condition is
sideDistX > sideDistY) and record which family of grid lines was crossed. -/
def castStep (s : RayState) : RayState :=
  if JQ.blt s.sideDistY s.sideDistX then
    { s with mapY := s.mapY + s.stepY,
             sideDistY := JQ.add s.sideDistY s.deltaDistY, side := 1 }
  else
    { s with mapX := s.mapX + s.stepX,
             sideDistX := JQ.add s.sideDistX s.deltaDistX, side := 0 }

/-- The DDA loop of Ray.cast, with explicit fuel (none when the fuel runs
out before the loop exits).  The second component records every index
(mapX, mapY) at which worldMap.data is read, in order. -/
def castLoop (w : WorldMap) : ℕ → RayState → Option RayState × List (ℤ × ℤ)
  | 0, _ => (none, [])
  | fuel + 1, s =>
    if s.hit ≠ 0 then (some (castFinish s), [])
    else
      let s1 := castStep s
      if s1.mapX < 0 ∨ s1.mapY < 0 ∨ (w.width : ℤ) ≤ s1.mapX ∨ (w.height : ℤ) ≤ s1.mapY then
        (some (castFinish s1), [])
      else
        let s2 := { s1 with hit := w.data.getD (s1.mapX + s1.mapY * (w.width : ℤ)).toNat 0 }
        let r := castLoop w fuel s2
        (r.1, (s1.mapX, s1.mapY) :: r.2)

/-- Ray.cast from ray.js: reset hit, then run the DDA loop (the distance
and face computation is folded into the loop exits by castFinish). -/
def cast (w : WorldMap) (fuel : ℕ) (s : RayState) : Option RayState × List (ℤ × ℤ) :=
  castLoop w fuel { s with hit := 0 }

/-- Substitute the fallback color of an unloaded texture, as the floor,
ceiling and skybox passes do with: if (appearance.hasLoaded === false)
appearance = appearance.temporaryColor.  On a Color the property read is
undefined and the strict comparison is false. -/
def substIfUnloaded : Appearance → Appearance
  | .tex t => if t.hasLoaded = false then .color t.temporaryColor else .tex t
  | .color c => .color c

/-- The four per-row selections of renderFloorCeiling (appearance, cell
stretch factors and the camera height in pixels relative to the plane),
each switching on isFloor = y >= horizon. -/
structure FCRowSel where
  appearance : Appearance
  cellWidth : ℚ
  cellHeight : ℚ
  posZ : ℚ
deriving DecidableEq

/-- Row parameter selection of renderFloorCeiling: the source computes
isFloor = y >= horizon and picks the appearance, cellWidth, cellHeight and
posZ with that flag. -/
def fcRowSelect (scene : Scene) (camera : Camera) (height : ℕ)
    (fApp cApp : Appearance) (horizon : ℤ) (y : ℕ) : FCRowSel :=
  let isFloor : Bool := horizon ≤ (y : ℤ)
  { appearance := if isFloor then fApp else cApp,
    cellWidth := if isFloor then scene.floor.cellWidth else scene.ceiling.cellWidth,
    cellHeight := if isFloor then scene.floor.cellHeight else scene.ceiling.cellHeight,
    posZ := if isFloor then camera.posZ * (height : ℚ)
            else (height : ℚ) * (scene.ceiling.height - camera.posZ) }

/-- Inner loop body of renderFloorCeiling: one pixel of a row, threading the
world coordinates (floorX, floorY).  The depth test skips (still stepping
the world coordinates); otherwise the lit color or sampled texel is written
with alpha 255 and the depth set to the row distance. -/
def fcPixel (y : ℕ) (sel : FCRowSel) (rowDistance : ℚ)
    (lighting : LightScalar) (floorStepX floorStepY : ℚ)
    (st : Screen × ℚ × ℚ) (x : ℕ) : Screen × ℚ × ℚ :=
  let screen := st.1
  let floorX := st.2.1
  let floorY := st.2.2
  let index := x + y * screen.renderWidth
  if JQ.ble (screen.depthBuffer.getD index JQ.inf) (JQ.fin rowDistance) = true then
    (screen, floorX + floorStepX, floorY + floorStepY)
  else
    let rgba : ℤ × ℤ × ℤ :=
      match sel.appearance with
      | .color c =>
        (⌊c.red * lighting.r⌋, ⌊c.green * lighting.g⌋,
         ⌊c.blue * lighting.b⌋)
      | .tex t =>
        let tx : ℤ := ⌊(t.width : ℚ) * |jsMod floorX sel.cellWidth / sel.cellWidth|⌋
        let ty : ℤ := ⌊(t.height : ℚ) * |jsMod floorY sel.cellHeight / sel.cellHeight|⌋
        let texIndex : ℤ := (tx + ty * (t.width : ℤ)) * 4
        (⌊((texPix t texIndex).getD 0 : ℚ) * lighting.r⌋,
         ⌊((texPix t (texIndex + 1)).getD 0 : ℚ) * lighting.g⌋,
         ⌊((texPix t (texIndex + 2)).getD 0 : ℚ) * lighting.b⌋)
    ({ screen with
       pixels := setPixelRGBA screen.pixels index rgba.1 rgba.2.1 rgba.2.2 255,
       depthBuffer := screen.depthBuffer.set index (JQ.fin rowDistance) },
     floorX + floorStepX, floorY + floorStepY)

/-- One row of renderFloorCeiling.  The row distance |posZ / p| is Infinity
in JS when p = 0 (replaced by 1e3 by the source); the embedding folds the
replacement into the p = 0 branch.  The posZ = 0 with p = 0 corner, where JS
produces NaN instead of Infinity, is also mapped to 1e3 (it needs a camera
exactly on the rendered plane at the horizon row and no claim exercises
it). -/
def fcRow (scene : Scene) (camera : Camera) (horizon : ℤ)
    (fApp cApp : Appearance) (rayDirLX rayDirLY rayDirRX rayDirRY : ℚ)
    (screen : Screen) (y : ℕ) : Screen :=
  let sel := fcRowSelect scene camera screen.renderHeight fApp cApp horizon y
  let p : ℤ := (y : ℤ) - horizon
  let rowDistance : ℚ := if p = 0 then 1000 else |sel.posZ / (p : ℚ)|
  let floorStepX := (rayDirRX - rayDirLX) * (rowDistance / (screen.renderWidth : ℚ))
  let floorStepY := (rayDirRY - rayDirLY) * (rowDistance / (screen.renderWidth : ℚ))
  let floorX0 := camera.posX + rayDirLX * rowDistance
  let floorY0 := camera.posY + rayDirLY * rowDistance
  let lighting := calculateLightingScalar scene.lighting camera rowDistance none
  ((List.range screen.renderWidth).foldl
    (fcPixel y sel rowDistance lighting floorStepX floorStepY)
    (screen, floorX0, floorY0)).1

/-- Renderer.renderFloorCeiling from renderer.js. -/
def renderFloorCeiling (screen : Screen) (scene : Scene) (camera : Camera) : Screen :=
  let height := screen.renderHeight
  let horizon : ℤ := ⌊(height : ℚ) / 2 + (camera.pitch : ℚ)⌋
  let rowStart : ℤ := if scene.ceiling.enabled then 0 else horizon
  let rowEnd : ℤ := if scene.floor.enabled then (height : ℤ) else horizon
  let rowStart : ℤ := if rowStart > (height : ℤ) then (height : ℤ) else rowStart
  let rowStart : ℤ := if rowStart < 0 then 0 else rowStart
  let rowEnd : ℤ := if rowEnd > (height : ℤ) then (height : ℤ) else rowEnd
  let rowEnd : ℤ := if rowEnd < 0 then 0 else rowEnd
  let floorAppearance := substIfUnloaded scene.floor.appearance
  let ceilingAppearance := substIfUnloaded scene.ceiling.appearance
  let rayDirLX := camera.dirX * camera.focalLength - camera.planeX * screen.aspect * (1 / 2)
  let rayDirLY := camera.dirY * camera.focalLength - camera.planeY * screen.aspect * (1 / 2)
  let rayDirRX := camera.dirX * camera.focalLength + camera.planeX * screen.aspect * (1 / 2)
  let rayDirRY := camera.dirY * camera.focalLength + camera.planeY * screen.aspect * (1 / 2)
  (List.range' rowStart.toNat (rowEnd - rowStart).toNat).foldl
    (fcRow scene camera horizon floorAppearance ceilingAppearance
      rayDirLX rayDirLY rayDirRX rayDirRY)
    screen

/-- Camera-space depth of a point given relative to the camera position: the
transformY computation of renderEntities (the inverse camera matrix applied
to the relative position, second coordinate). -/
def cameraSpaceDepth (camera : Camera) (aspect : ℚ) (relX relY : ℚ) : ℚ :=
  let dirX := camera.dirX * camera.focalLength
  let dirY := camera.dirY * camera.focalLength
  let planeX := camera.planeX * aspect / 2
  let planeY := camera.planeY * aspect / 2
  let invDet := 1 / (camera.planeX * aspect / 2 * dirY - dirX * camera.planeY * aspect / 2)
  invDet * (-planeY * relX + planeX * relY)

/-- Camera-space lateral coordinate of a point relative to the camera: the
transformX computation of renderEntities. -/
def cameraSpaceLateral (camera : Camera) (aspect : ℚ) (relX relY : ℚ) : ℚ :=
  let dirX := camera.dirX * camera.focalLength
  let dirY := camera.dirY * camera.focalLength
  let invDet := 1 / (camera.planeX * aspect / 2 * dirY - dirX * camera.planeY * aspect / 2)
  invDet * (dirY * relX - dirX * relY)

/-- The (transformX, transformY) pair renderEntities computes for an
entity. -/
def entityTransform (screen : Screen) (camera : Camera) (entity : Entity) : ℚ × ℚ :=
  let entityX := entity.posX - camera.posX
  let entityY := entity.posY - camera.posY
  (cameraSpaceLateral camera screen.aspect entityX entityY,
   cameraSpaceDepth camera screen.aspect entityX entityY)

/-- Perpendicular (camera-space) depth of a world point, via the same
transform renderEntities applies to entity positions. -/
def perpDistTo (camera : Camera) (aspect : ℚ) (ptX ptY : ℚ) : ℚ :=
  cameraSpaceDepth camera aspect (ptX - camera.posX) (ptY - camera.posY)

/-- Everything renderEntities computes for one entity after the
behind-camera guard.  The divisions by transformY sit inside this record;
at transformY = 0 the JS source produces Infinity or NaN here and no theorem
asserts the junk rational values of that corner. -/
structure EntityDrawParams where
  transformX : ℚ
  transformY : ℚ
  entityScreenX : ℚ
  entityScreenY : ℚ
  entityHeight : ℚ
  entityWidth : ℚ
  drawStartX : ℤ
  drawEndX : ℤ
  drawStartY : ℤ
  drawEndY : ℤ
  columnStart : ℤ
  columnEnd : ℤ
  appearanceIsColor : Bool
  lighting : LightScalar
deriving DecidableEq

/-- The per-entity body of renderEntities up to (and including) the screen
rect computation: none exactly when the source hits the behind-camera
continue (transformY < 0). -/
def processEntity (screen : Screen) (scene : Scene) (camera : Camera)
    (entity : Entity) : Option EntityDrawParams :=
  let t := entityTransform screen camera entity
  let transformX := t.1
  let transformY := t.2
  if transformY < 0 then none
  else
    let entityScreenX := (transformX / transformY + 1) / 2 * (screen.renderWidth : ℚ)
    let entityScreenY := (⌊(screen.renderHeight : ℚ) / 2 + (camera.pitch : ℚ)⌋ : ℚ) -
      ((entity.posZ + (entity.sizeY - 1) / 2 - (camera.posZ - 1 / 2)) / transformY) *
        (screen.renderHeight : ℚ)
    let entityHeight := entity.sizeY / transformY * (screen.renderHeight : ℚ)
    let entityWidth := entity.sizeX / transformY * (screen.renderWidth : ℚ) / screen.aspect
    let drawStartX : ℤ := ⌊entityScreenX - entityWidth / 2⌋
    let drawEndX : ℤ := ⌊entityScreenX + entityWidth / 2⌋
    let drawStartY : ℤ := ⌊entityScreenY - entityHeight / 2⌋
    let drawEndY : ℤ := ⌊entityScreenY + entityHeight / 2⌋
    let columnStart : ℤ :=
      if drawStartX < 0 then 0
      else if drawStartX > (screen.renderWidth : ℤ) then (screen.renderWidth : ℤ)
      else drawStartX
    let columnEnd : ℤ :=
      if drawEndX < 0 then 0
      else if drawEndX > (screen.renderWidth : ℤ) then (screen.renderWidth : ℤ)
      else drawEndX
    let appearanceIsColor : Bool :=
      match entity.appearance with
      | .color _ => true
      | .tex t => t.hasLoaded = false
    some { transformX := transformX, transformY := transformY,
           entityScreenX := entityScreenX, entityScreenY := entityScreenY,
           entityHeight := entityHeight, entityWidth := entityWidth,
           drawStartX := drawStartX, drawEndX := drawEndX,
           drawStartY := drawStartY, drawEndY := drawEndY,
           columnStart := columnStart, columnEnd := columnEnd,
           appearanceIsColor := appearanceIsColor,
           lighting := calculateLightingScalar scene.lighting camera transformY none }

/-- The color drawColoredColumn receives when renderEntities falls back to a
colored rectangle.  When the appearance is an unloaded Texture the source
passes the texture object itself; its undefined channel reads make every
floor(undefined * l) NaN, stored as 0 by the clamped array, observably equal
to an all-zero color. -/
def entityFallbackColor : Appearance → Color
  | .color c => c
  | .tex _ => ⟨0, 0, 0, 0⟩

/-- One entity of renderEntities: skip behind-camera entities, otherwise draw
the columns of the projected rect through the shared column primitives. -/
def renderEntity (screen : Screen) (scene : Scene) (camera : Camera)
    (entity : Entity) : Screen :=
  match processEntity screen scene camera entity with
  | none => screen
  | some p =>
    (List.range' p.columnStart.toNat (p.columnEnd - p.columnStart).toNat).foldl
      (fun scr x =>
        if p.appearanceIsColor then
          drawColoredColumn scr x (entityFallbackColor entity.appearance)
            p.drawStartY p.drawEndY p.transformY p.lighting
        else
          match entity.appearance with
          | .tex t =>
            let texX : ℤ := ⌊((x : ℚ) - (p.drawStartX : ℚ)) /
              ((p.drawEndX : ℚ) - (p.drawStartX : ℚ)) * (t.width : ℚ)⌋
            drawTexturedColumn scr x t texX p.drawStartY p.drawEndY
              p.transformY p.lighting
          | .color _ => scr)
      screen

/-- Renderer.renderEntities from renderer.js. -/
def renderEntities (screen : Screen) (scene : Scene) (camera : Camera) : Screen :=
  scene.gameObject.entities.foldl (fun scr e => renderEntity scr scene camera e) screen

/-- A CSS rgb() component as the canvas parses it: round to the nearest
integer, clamp into [0, 255]. -/
def cssByte (q : ℚ) : ℕ :=
  clampByte (round q)

/-- The Color branch of renderSkybox: fillRect over rows [0, horizon) of the
canvas with the ambient-attenuated color, then setPixels.  Modelled directly
on the pixel array, which agrees with the canvas after Screen.clear() (clear
writes the same empty ImageData to both).  fillRect is fully opaque, so
alpha is 255; the depth buffer is untouched. -/
def fillSkyColor (screen : Screen) (c : Color) (ambient : ℚ) (horizon : ℤ) : Screen :=
  let hEnd : ℤ := min (max horizon 0) (screen.renderHeight : ℤ)
  { screen with
    pixels :=
      (List.range (hEnd.toNat * screen.renderWidth)).foldl
        (fun px i => setPixelRGBA px i (round (c.red * ambient))
          (round (c.green * ambient)) (round (c.blue * ambient)) 255)
        screen.pixels }

/-- One column of the Texture branch of renderSkybox: a unit ray from
(0.5, 0.5), the smaller initial side distance doubled as the perpendicular
distance, the texture column from the matching wallX, drawn from
horizon - columnHeight to horizon with depth 0 and ambient lighting.  The
JQ.toQ junk on an Infinity side distance is only reachable when both ray
components are zero, in which case columnHeight is 0 and the drawn range is
empty, matching the JS NaN column that draws nothing. -/
def skyColumn (tex : Texture) (scene : Scene) (camera : Camera) (horizon : ℤ)
    (screen : Screen) (c : ℕ) : Screen :=
  let cameraX := (c : ℚ) / (screen.renderWidth : ℚ) - 1 / 2
  let rayDirX := camera.dirX * camera.focalLength + camera.planeX * screen.aspect * cameraX
  let rayDirY := camera.dirY * camera.focalLength + camera.planeY * screen.aspect * cameraX
  let ray := rayInit (1 / 2) (1 / 2) rayDirX rayDirY 1
  let wp : ℚ × JQ :=
    if JQ.blt ray.sideDistX ray.sideDistY then
      (1 / 2 + JQ.toQ ray.sideDistX * rayDirY, JQ.scale 2 ray.sideDistX)
    else
      (1 / 2 + JQ.toQ ray.sideDistY * rayDirX, JQ.scale 2 ray.sideDistY)
  let wallX := wp.1 - (⌊wp.1⌋ : ℚ)
  let texX : ℤ := ⌊wallX * (tex.width : ℚ)⌋
  let columnHeight : ℤ := ⌊jqDivQ (tex.height : ℚ) wp.2⌋
  drawTexturedColumn screen c tex texX (horizon - columnHeight) horizon 0
    ⟨scene.lighting.ambientLight, scene.lighting.ambientLight, scene.lighting.ambientLight⟩

/-- Renderer.renderSkybox from renderer.js. -/
def renderSkybox (screen : Screen) (scene : Scene) (camera : Camera) : Screen :=
  let appearance := substIfUnloaded scene.skybox.appearance
  let horizon : ℤ := ⌊(screen.renderHeight : ℚ) / 2 + (camera.pitch : ℚ)⌋
  match appearance with
  | .color c => fillSkyColor screen c scene.lighting.ambientLight horizon
  | .tex t =>
    (List.range screen.renderWidth).foldl (skyColumn t scene camera horizon) screen

/-- Array.prototype.indexOf with strict equality: first index of the element,
or -1. -/
def jsIndexOf {α : Type} [DecidableEq α] : List α → α → ℤ
  | [], _ => -1
  | x :: xs, a =>
    if x = a then 0
    else if jsIndexOf xs a = -1 then -1 else jsIndexOf xs a + 1

/-- Array.prototype.splice(start, 1): a negative start counts from the end
(clamped at 0), a start beyond the length removes nothing; one element at
the actual start is removed. -/
def jsSplice1 {α : Type} (l : List α) (start : ℤ) : List α :=
  let len : ℤ := (l.length : ℤ)
  let actual : ℤ := if start < 0 then max (len + start) 0 else min start len
  l.take actual.toNat ++ l.drop (actual.toNat + 1)

/-- Scene.remove for an Entity argument (scene.js): indexOf on the entity
list followed by splice(index, 1).  Entities are compared by identity in the
source; the type parameter with decidable equality models object
identity. -/
def sceneRemoveEntity {α : Type} [DecidableEq α] (entities : List α) (e : α) : List α :=
  jsSplice1 entities (jsIndexOf entities e)

/-- Squared magnitude of a 2d vector (vector.js, getMagSqr, is2d case). -/
def vecGetMagSqr (x y : ℝ) : ℝ :=
  x * x + y * y

/-- Magnitude of a 2d vector (vector.js, getMag). -/
noncomputable def vecGetMag (x y : ℝ) : ℝ :=
  Real.sqrt (vecGetMagSqr x y)

/-- A 2d vector as Orientation constructs it (vector.js without the height
component). -/
structure VecR where
  x : ℝ
  y : ℝ

/-- Vector.normalize from vector.js: no-op on the zero vector, otherwise
divide the components by the magnitude. -/
noncomputable def vecNormalize (v : VecR) : VecR :=
  let mag := vecGetMag v.x v.y
  if mag = 0 then v else ⟨v.x / mag, v.y / mag⟩

/-- Orientation: a position and a direction vector. -/
structure OrientationR where
  position : VecR
  direction : VecR

/-- The Orientation constructor (orientation.js): position from the first
two arguments, direction from the last two, normalized in case the caller
passed a non-unit vector.  This is the revision of orientation.js with the
normalization step, the one the specification and the camera focal-length
scaling rely on; the repository also carries an older revision without
it. -/
noncomputable def orientationNew (posX posY dirX dirY : ℝ) : OrientationR :=
  { position := ⟨posX, posY⟩, direction := vecNormalize ⟨dirX, dirY⟩ }

/-- The vertical gridline the DDA crosses next while the ray is in map
column (or row) m and travels with the given direction component. -/
def nextGrid (dir : ℚ) (m : ℤ) : ℤ :=
  if dir < 0 then m else m + 1

/-- The gridline through which the DDA entered cell column (or row) m: the
face of the hit cell the ray came through. -/
def hitLine (dir : ℚ) (m : ℤ) : ℤ :=
  if dir < 0 then m + 1 else m

/-- Loop invariant of the DDA for a ray started at (posX, posY) with
direction (dirX, dirY) and rayLength 1: the step signs, the per-axis deltas,
and each side distance as the ray parameter t at which the next gridline on
that axis is crossed (Infinity when the axis is never advanced). -/
def RayInv (posX posY dirX dirY : ℚ) (s : RayState) : Prop :=
  s.stepX = (if dirX < 0 then -1 else 1) ∧
  s.stepY = (if dirY < 0 then -1 else 1) ∧
  s.deltaDistX = jsAbsDiv 1 dirX ∧
  s.deltaDistY = jsAbsDiv 1 dirY ∧
  s.sideDistX = (if dirX = 0 then JQ.inf
    else JQ.fin (((nextGrid dirX s.mapX : ℤ) - posX) / dirX)) ∧
  s.sideDistY = (if dirY = 0 then JQ.inf
    else JQ.fin (((nextGrid dirY s.mapY : ℤ) - posY) / dirY))

/-- A loaded 1 by 1 fully opaque texture used as a skybox appearance. -/
def c1tex : Texture :=
  ⟨1, 1, [5, 6, 7, 255], true, ⟨0, 0, 0, 255⟩⟩

/-- Scene with only the texture skybox enabled. -/
def c1scene : Scene :=
  { worldMap := ⟨0, 0, []⟩,
    floor := ⟨false, .color ⟨0, 0, 0, 255⟩, 1, 1⟩,
    ceiling := ⟨false, .color ⟨0, 0, 0, 255⟩, 1, 1, 1⟩,
    skybox := ⟨true, .tex c1tex⟩,
    gameObject := ⟨[]⟩,
    lighting := ⟨false, 1, 0⟩ }

/-- Camera looking along +y with focal length 1 and unit camera plane. -/
def c1camera : Camera :=
  { posX := 0, posY := 0, posZ := 1 / 2, dirX := 0, dirY := 1,
    planeX := -1, planeY := 0, focalLength := 1, pitch := 0,
    lighting := ⟨1, .inf, ⟨255, 255, 255, 255⟩⟩ }

/-- A freshly cleared 1 by 2 screen. -/
def c1screen : Screen :=
  { renderWidth := 1, renderHeight := 2, aspect := 1 / 2,
    pixels := List.replicate 8 0, depthBuffer := [.inf, .inf] }

/-- Scene lighting with ambient 0 (hence enabled) and no side shade. -/
def c3scene : SceneLighting :=
  ⟨true, 0, 0⟩

/-- Camera with focal length 2, brightness 1, max brightness 10, white
light. -/
def c3camera : Camera :=
  { posX := 0, posY := 0, posZ := 0, dirX := 1, dirY := 0,
    planeX := 0, planeY := 1, focalLength := 2, pitch := 0,
    lighting := ⟨1, .fin 10, ⟨255, 255, 255, 255⟩⟩ }

/-- Map with a single-cell-wide corridor: the wall cell is at (0, 1). -/
def c4w : WorldMap :=
  ⟨1, 2, [0, 1]⟩

/-- Camera in the middle of cell (0, 0) looking along +y. -/
def c4camera : Camera :=
  { posX := 1 / 2, posY := 1 / 2, posZ := 0, dirX := 0, dirY := 1,
    planeX := -1, planeY := 0, focalLength := 1, pitch := 0,
    lighting := ⟨1, .inf, ⟨255, 255, 255, 255⟩⟩ }

/-- The ray state the cast of the c4 setup terminates in. -/
def c4r : RayState :=
  { mapX := 0, mapY := 1, stepX := 1, stepY := 1,
    deltaDistX := .inf, deltaDistY := .fin 1,
    sideDistX := .inf, sideDistY := .fin (3 / 2),
    side := 1, face := 2, hit := 1, distance := .fin (1 / 2) }

/-- An all-empty 2 by 2 map. -/
def c5w : WorldMap :=
  ⟨2, 2, [0, 0, 0, 0]⟩

/-- A ray started in cell (0, 0) travelling along +x. -/
def c5s : RayState :=
  rayInit (1 / 2) (1 / 2) 1 0 1

/-- A 1 by 1 screen whose single pixel has stored depth 1. -/
def c6screen : Screen :=
  ⟨1, 1, 1, [9, 9, 9, 9], [.fin 1]⟩

/-- A 1 by 1 screen whose single pixel has stored depth 5. -/
def c6wscreen : Screen :=
  ⟨1, 1, 1, [0, 0, 0, 0], [.fin 5]⟩

/-- A loaded 1 by 1 fully opaque texture. -/
def c6wtex : Texture :=
  ⟨1, 1, [8, 9, 10, 255], true, ⟨0, 0, 0, 255⟩⟩

/-- Scene with floor and ceiling enabled as distinguishable solid colors. -/
def c7scene : Scene :=
  { worldMap := ⟨0, 0, []⟩,
    floor := ⟨true, .color ⟨10, 10, 10, 255⟩, 1, 1⟩,
    ceiling := ⟨true, .color ⟨20, 20, 20, 255⟩, 1, 1, 1⟩,
    skybox := ⟨false, .color ⟨0, 0, 0, 255⟩⟩,
    gameObject := ⟨[]⟩,
    lighting := ⟨false, 1, 0⟩ }

/-- Camera at height one half, pitch 0. -/
def c7camera : Camera :=
  { posX := 0, posY := 0, posZ := 1 / 2, dirX := 0, dirY := 1,
    planeX := -1, planeY := 0, focalLength := 1, pitch := 0,
    lighting := ⟨1, .inf, ⟨255, 255, 255, 255⟩⟩ }

/-- A freshly cleared 1 by 2 screen (horizon at row 1). -/
def c7screen : Screen :=
  { renderWidth := 1, renderHeight := 2, aspect := 1 / 2,
    pixels := List.replicate 8 0, depthBuffer := [.inf, .inf] }

/-- A cleared 2 by 2 screen with aspect 1. -/
def c8screen : Screen :=
  { renderWidth := 2, renderHeight := 2, aspect := 1,
    pixels := List.replicate 16 0, depthBuffer := List.replicate 4 .inf }

/-- Scene with lighting disabled and no other content. -/
def c8scene : Scene :=
  { worldMap := ⟨0, 0, []⟩,
    floor := ⟨false, .color ⟨0, 0, 0, 255⟩, 1, 1⟩,
    ceiling := ⟨false, .color ⟨0, 0, 0, 255⟩, 1, 1, 1⟩,
    skybox := ⟨false, .color ⟨0, 0, 0, 255⟩⟩,
    gameObject := ⟨[]⟩,
    lighting := ⟨false, 1, 0⟩ }

/-- Camera at the origin looking along +y. -/
def c8camera : Camera :=
  { posX := 0, posY := 0, posZ := 1 / 2, dirX := 0, dirY := 1,
    planeX := -1, planeY := 0, focalLength := 1, pitch := 0,
    lighting := ⟨1, .inf, ⟨255, 255, 255, 255⟩⟩ }

/-- An entity exactly on the camera plane: its camera-space depth is 0. -/
def c8entity0 : Entity :=
  ⟨5, 0, 0, 1, 1, .color ⟨1, 2, 3, 255⟩⟩

/-- An entity strictly behind the camera: camera-space depth -1. -/
def c8entityNeg : Entity :=
  ⟨0, -1, 0, 1, 1, .color ⟨1, 2, 3, 255⟩⟩

/-- Claim C1: the skybox pass is claimed to write pixels only and leave
every depth buffer entry at Infinity.  The code contradicts this for a
loaded texture skybox: drawTexturedColumn is called with depth 0 and its
draw path stores that 0 into the depth buffer.  On a cleared 1 by 2 screen
the drawn sky pixel ends with depth 0, not Infinity, so every later pass
fails its depth test there. -/
theorem skybox_texture_writes_depth_zero :
    (renderSkybox c1screen c1scene c1camera).depthBuffer = [JQ.fin 0, JQ.inf] ∧
    (renderSkybox c1screen c1scene c1camera).depthBuffer ≠ c1screen.depthBuffer := by
  refine ⟨?_, ?_⟩ <;>
    norm_num [renderSkybox, substIfUnloaded, c1scene, c1camera, c1screen, c1tex,
      skyColumn, rayInit, jsAbsDiv, JQ.scale, JQ.blt, JQ.toQ, jqDivQ,
      drawTexturedColumn, drawTexturedColumnPixel, texPix, setPixelRGBA,
      clampByte, JQ.ble, List.range_succ, List.range', List.foldl]
  all_goals decide

/-- Claim C2: the Color constructor is claimed to set green = g and
blue = b.  The source assigns this.blue = g and this.green = b, so
new Color(0, 255, 0, 255) yields green 0 and blue 255, not the claimed
green 255 and blue 0. -/
theorem color_constructor_swaps_green_blue :
    colorNew 0 255 0 255 = some { red := 0, green := 0, blue := 255, alpha := 255 } ∧
    colorNew 0 255 0 255 ≠ some { red := 0, green := 255, blue := 0, alpha := 255 } := by
  refine ⟨?_, ?_⟩ <;> norm_num [colorNew, isInt255]

/-- Claim C3, counterexample: with lighting enabled, brightness 1, max
brightness 10, ambient 0, no side shade, white camera light, focal length 2
and depth 1, the claimed factors brightness / depth = 1 do not match the
code, which divides by depth times focalLength and returns 1/2. -/
theorem lighting_scalar_claim_false :
    calculateLightingScalar c3scene c3camera 1 (some 0) = ⟨1 / 2, 1 / 2, 1 / 2⟩ ∧
    calculateLightingScalar c3scene c3camera 1 (some 0) ≠ ⟨1, 1, 1⟩ := by
  refine ⟨?_, ?_⟩ <;> norm_num [calculateLightingScalar, c3scene, c3camera]

/-- Claim C6, counterexample: drawColoredColumn overwrites a pixel whose
stored depth equals the incoming depth (its guard is stored < depth), so
depth arbitration is not uniformly strict: with stored depth 1 and incoming
depth 1 the pixel is rewritten. -/
theorem colored_column_overwrites_at_equal_depth :
    (drawColoredColumnPixel c6screen 0 ⟨3, 4, 5, 6⟩ 1 ⟨1, 1, 1⟩ 0).pixels = [3, 4, 5, 255] ∧
    (drawColoredColumnPixel c6screen 0 ⟨3, 4, 5, 6⟩ 1 ⟨1, 1, 1⟩ 0).pixels ≠ c6screen.pixels := by
  refine ⟨?_, ?_⟩ <;>
    norm_num [drawColoredColumnPixel, c6screen, setPixelRGBA, clampByte, JQ.blt]
  all_goals decide

/-- Claim C7, counterexample: on a 1 by 2 screen with pitch 0 the horizon is
row 1; the claim says the row y = horizon is treated as ceiling (color 20
here), but the code treats y >= horizon as floor and renders the floor
color 10 there. -/
theorem horizon_row_uses_floor_appearance :
    (renderFloorCeiling c7screen c7scene c7camera).pixels =
      [20, 20, 20, 255, 10, 10, 10, 255] ∧
    (renderFloorCeiling c7screen c7scene c7camera).pixels.getD 4 0 ≠ 20 := by
  refine ⟨?_, ?_⟩ <;>
    norm_num [renderFloorCeiling, fcRow, fcRowSelect, fcPixel, substIfUnloaded,
      calculateLightingScalar, c7scene, c7camera, c7screen, jsMod, jsTrunc,
      setPixelRGBA, clampByte, JQ.ble, List.range_succ, List.range_zero,
      List.range', List.foldl, List.foldl_append]
  all_goals decide

/-- Claim C7, amended: a rendered row uses the floor appearance, cell sizes
and posZ = cameraZ * H exactly when y >= horizon (not y > horizon), so the
row y = horizon is treated as floor. -/
theorem floor_ceiling_row_selection (scene : Scene) (camera : Camera)
    (height : ℕ) (fApp cApp : Appearance) (horizon : ℤ) (y : ℕ) :
    fcRowSelect scene camera height fApp cApp horizon y =
      if horizon ≤ (y : ℤ) then
        ⟨fApp, scene.floor.cellWidth, scene.floor.cellHeight,
          camera.posZ * (height : ℚ)⟩
      else
        ⟨cApp, scene.ceiling.cellWidth, scene.ceiling.cellHeight,
          (height : ℚ) * (scene.ceiling.height - camera.posZ)⟩ := by
  unfold fcRowSelect
  by_cases h : horizon ≤ (y : ℤ) <;> simp [h]

/-- Claim C8, counterexample: an entity whose camera-space depth transformY
is exactly 0 is claimed to be skipped before the divisions by transformY;
the source guard is transformY < 0, so this entity passes the guard and the
per-entity screen rect (with its divisions by transformY) is computed. -/
theorem entity_zero_depth_not_skipped :
    (entityTransform c8screen c8camera c8entity0).2 = 0 ∧
    (processEntity c8screen c8scene c8camera c8entity0).isSome = true := by
  refine ⟨?_, ?_⟩ <;>
    norm_num [entityTransform, cameraSpaceDepth, cameraSpaceLateral, processEntity,
      c8screen, c8scene, c8camera, c8entity0]

/-- Claim C8, amended: every entity with transformY < 0 is skipped before
the divisions by transformY; it draws nothing and leaves the screen (pixels
and depth buffer) unchanged.  transformY = 0 is not skipped by the guard. -/
theorem entity_negative_depth_skipped (screen : Screen) (scene : Scene)
    (camera : Camera) (entity : Entity)
    (h : (entityTransform screen camera entity).2 < 0) :
    processEntity screen scene camera entity = none ∧
    renderEntity screen scene camera entity = screen := by
  have hp : processEntity screen scene camera entity = none := by
    unfold processEntity
    simp [h]
  refine ⟨hp, ?_⟩
  unfold renderEntity
  rw [hp]

/-- Witness for claim C8's amended theorem at a concrete entity behind the
camera. -/
theorem entity_negative_depth_skipped_witness :
    processEntity c8screen c8scene c8camera c8entityNeg = none ∧
    renderEntity c8screen c8scene c8camera c8entityNeg = c8screen :=
  entity_negative_depth_skipped c8screen c8scene c8camera c8entityNeg (by
    norm_num [entityTransform, cameraSpaceDepth, cameraSpaceLateral,
      c8screen, c8camera, c8entityNeg])

/-- Claim C9: the Orientation constructor normalizes the supplied direction,
so for any nonzero direction the stored direction vector has magnitude 1. -/
theorem orientation_direction_unit (posX posY dirX dirY : ℝ)
    (h : dirX ≠ 0 ∨ dirY ≠ 0) :
    vecGetMag (orientationNew posX posY dirX dirY).direction.x
      (orientationNew posX posY dirX dirY).direction.y = 1 := by
  have hs : 0 < dirX * dirX + dirY * dirY := by
    rcases h with h | h
    · nlinarith [mul_self_pos.mpr h, mul_self_nonneg dirY]
    · nlinarith [mul_self_pos.mpr h, mul_self_nonneg dirX]
  have hne : Real.sqrt (dirX * dirX + dirY * dirY) ≠ 0 :=
    ne_of_gt (Real.sqrt_pos.mpr hs)
  have hsq : Real.sqrt (dirX * dirX + dirY * dirY) *
      Real.sqrt (dirX * dirX + dirY * dirY) = dirX * dirX + dirY * dirY :=
    Real.mul_self_sqrt (le_of_lt hs)
  unfold orientationNew vecNormalize vecGetMag vecGetMagSqr
  simp only [hne, if_false]
  have key : dirX / Real.sqrt (dirX * dirX + dirY * dirY) *
      (dirX / Real.sqrt (dirX * dirX + dirY * dirY)) +
      dirY / Real.sqrt (dirX * dirX + dirY * dirY) *
      (dirY / Real.sqrt (dirX * dirX + dirY * dirY)) = 1 := by
    rw [div_mul_div_comm, div_mul_div_comm, div_add_div_same, hsq]
    exact div_self (ne_of_gt hs)
  rw [key, Real.sqrt_one]

/-- Witness for claim C9's theorem at the direction (3, 4). -/
theorem orientation_direction_unit_witness :
    vecGetMag (orientationNew 0 0 3 4).direction.x
      (orientationNew 0 0 3 4).direction.y = 1 :=
  orientation_direction_unit 0 0 3 4 (Or.inl three_ne_zero)

/-- indexOf of an element that is not in the list is -1. -/
theorem jsIndexOf_eq_neg_one_of_not_mem {α : Type} [DecidableEq α]
    (l : List α) (e : α) (h : e ∉ l) : jsIndexOf l e = -1 := by
  induction l with
  | nil => rfl
  | cons x xs ih =>
    simp only [List.mem_cons, not_or] at h
    unfold jsIndexOf
    rw [if_neg (fun hx => h.1 hx.symm), ih h.2]
    simp

/-- Claim C10: removing an entity that is not in a non-empty entity list
makes indexOf return -1 and splice(-1, 1) delete the final element, so the
list loses its last entry instead of staying unchanged. -/
theorem remove_absent_entity_drops_last {α : Type} [DecidableEq α]
    (l : List α) (e : α) (hne : l ≠ []) (hmem : e ∉ l) :
    jsIndexOf l e = -1 ∧ sceneRemoveEntity l e = l.dropLast ∧
    sceneRemoveEntity l e ≠ l := by
  have hidx := jsIndexOf_eq_neg_one_of_not_mem l e hmem
  have hlen : 1 ≤ l.length := List.length_pos.mpr hne
  have heq : sceneRemoveEntity l e = l.dropLast := by
    unfold sceneRemoveEntity jsSplice1
    rw [hidx]
    have h1 : ((-1 : ℤ) < 0) = True := by simp
    simp only [h1, if_true, reduceIte]
    have h2 : (max ((l.length : ℤ) + -1) 0).toNat = l.length - 1 := by omega
    rw [h2]
    have h3 : l.length - 1 + 1 = l.length := by omega
    rw [h3, List.drop_length, List.append_nil, List.dropLast_eq_take]
  refine ⟨hidx, heq, ?_⟩
  rw [heq]
  intro hcontra
  have := congrArg List.length hcontra
  rw [List.length_dropLast] at this
  omega

/-- Witness for claim C10's theorem on the list [1, 2] and the absent
element 3. -/
theorem remove_absent_entity_drops_last_witness :
    jsIndexOf [1, 2] (3 : ℕ) = -1 ∧
    sceneRemoveEntity [1, 2] (3 : ℕ) = [1, 2].dropLast ∧
    sceneRemoveEntity [1, 2] (3 : ℕ) ≠ [1, 2] :=
  remove_absent_entity_drops_last [1, 2] 3 (by decide) (by decide)

/-- Claim C3, amended: with lighting enabled the per-channel factors are
L times camColor / 255 where L is brightness / (depth * focalLength) clamped
above by maxBrightness, below by ambient, then decremented by sideShade for
side = 1; with lighting disabled the factors are (1, 1, 1). -/
theorem lighting_scalar_formula (scene : SceneLighting) (camera : Camera)
    (depth : ℚ) (side : Option ℤ) :
    calculateLightingScalar scene camera depth side =
      if scene.enabled = false then ⟨1, 1, 1⟩
      else
        let base := max scene.ambientLight
          (jqMin (camera.lighting.brightness / (depth * camera.focalLength))
            camera.lighting.maxBrightness)
        let l := if side = some 1 then base - scene.sideShade else base
        ⟨l * camera.lighting.color.red / 255,
         l * camera.lighting.color.green / 255,
         l * camera.lighting.color.blue / 255⟩ := by
  have hmin : ∀ a m : ℚ, (if a > m then m else a) = min a m := by
    intro a m
    rcases le_or_lt a m with h | h
    · rw [if_neg (not_lt.mpr h), min_eq_left h]
    · rw [if_pos h, min_eq_right h.le]
  have hmax : ∀ a b : ℚ, (if b < a then a else b) = max a b := by
    intro a b
    rcases le_or_lt a b with h | h
    · rw [if_neg (not_lt.mpr h), max_eq_right h]
    · rw [if_pos h, max_eq_left h.le]
  unfold calculateLightingScalar jqMin
  by_cases he : scene.enabled = false
  · simp [he]
  · rw [if_neg he, if_neg he]
    cases hmb : camera.lighting.maxBrightness with
    | fin m =>
      dsimp only
      rw [hmin, hmax]
    | inf =>
      dsimp only
      rw [hmax]

/-- Reading back an in-range index just written into a depth buffer. -/
theorem getD_set_self (l : List JQ) (i : ℕ) (v : JQ) (h : i < l.length) :
    (l.set i v).getD i JQ.inf = v := by
  induction l generalizing i with
  | nil => simp at h
  | cons a as ih =>
    cases i with
    | zero => simp
    | succ n =>
      simp only [List.set_cons_succ, List.getD_cons_succ]
      exact ih n (by simpa using h)

/-- Comparison of two finite embedded numbers. -/
theorem JQ_blt_fin_iff (a b : ℚ) : (JQ.blt (JQ.fin a) (JQ.fin b) = true) ↔ a < b := by
  simp [JQ.blt]

/-- Non-strict comparison of two finite embedded numbers. -/
theorem JQ_ble_fin_iff (a b : ℚ) : (JQ.ble (JQ.fin a) (JQ.fin b) = true) ↔ a ≤ b := by
  simp [JQ.ble]

/-- Claim C6, amended: for an in-range pixel, drawTexturedColumn and the
floor and ceiling pass overwrite exactly when the stored depth is strictly
greater than the incoming one, while drawColoredColumn overwrites exactly
when the stored depth is greater than or equal to the incoming one (its
guard is stored < depth), and both column primitives bypass the depth test
entirely when the incoming depth is 0. -/
theorem depth_arbitration_conditions (scr : Screen) (x y : ℕ) (c : Color)
    (t : Texture) (texX : ℤ) (d rowD texPos step fx fy fsx fsy : ℚ)
    (l : LightScalar) (sel : FCRowSel)
    (hidx : x + y * scr.renderWidth < scr.depthBuffer.length)
    (hop : texPix t ((texX + ⌊texPos⌋ * (t.width : ℤ)) * 4 + 3) = some 255) :
    ((drawColoredColumnPixel scr x c d l y).depthBuffer.getD
        (x + y * scr.renderWidth) JQ.inf =
      if d = 0 ∨ JQ.ble (JQ.fin d) (scr.depthBuffer.getD (x + y * scr.renderWidth) JQ.inf) = true
      then JQ.fin d
      else scr.depthBuffer.getD (x + y * scr.renderWidth) JQ.inf) ∧
    ((drawTexturedColumnPixel x t texX d l step (scr, texPos) y).1.depthBuffer.getD
        (x + y * scr.renderWidth) JQ.inf =
      if d = 0 ∨ JQ.blt (JQ.fin d) (scr.depthBuffer.getD (x + y * scr.renderWidth) JQ.inf) = true
      then JQ.fin d
      else scr.depthBuffer.getD (x + y * scr.renderWidth) JQ.inf) ∧
    ((fcPixel y sel rowD l fsx fsy (scr, fx, fy) x).1.depthBuffer.getD
        (x + y * scr.renderWidth) JQ.inf =
      if JQ.blt (JQ.fin rowD) (scr.depthBuffer.getD (x + y * scr.renderWidth) JQ.inf) = true
      then JQ.fin rowD
      else scr.depthBuffer.getD (x + y * scr.renderWidth) JQ.inf) := by
  obtain ⟨st, hst⟩ : ∃ st, scr.depthBuffer.getD (x + y * scr.renderWidth) JQ.inf = st :=
    ⟨_, rfl⟩
  refine ⟨?_, ?_, ?_⟩
  · unfold drawColoredColumnPixel
    dsimp only
    rw [hst]
    by_cases hd : d = 0
    · subst hd
      rw [if_neg (by simp)]
      rw [if_pos (Or.inl rfl)]
      exact getD_set_self _ _ _ hidx
    · cases st with
      | inf =>
        rw [if_neg (by simp [JQ.blt])]
        rw [if_pos (show d = 0 ∨ JQ.ble (JQ.fin d) JQ.inf = true from Or.inr rfl)]
        exact getD_set_self _ _ _ hidx
      | fin sq =>
        by_cases hlt : sq < d
        · rw [if_pos ⟨hd, (JQ_blt_fin_iff sq d).mpr hlt⟩]
          rw [if_neg (by
            rintro (h | h)
            · exact hd h
            · exact absurd ((JQ_ble_fin_iff d sq).mp h) (not_le.mpr hlt))]
          exact hst
        · rw [if_neg (by
            rintro ⟨-, hb⟩
            exact hlt ((JQ_blt_fin_iff sq d).mp hb))]
          rw [if_pos (Or.inr ((JQ_ble_fin_iff d sq).mpr (not_lt.mp hlt)))]
          exact getD_set_self _ _ _ hidx
  · unfold drawTexturedColumnPixel
    dsimp only
    rw [hst]
    by_cases hd : d = 0
    · subst hd
      rw [if_neg (by simp)]
      rw [if_neg (by simp [hop])]
      rw [if_pos (Or.inl rfl)]
      exact getD_set_self _ _ _ hidx
    · cases st with
      | inf =>
        rw [if_neg (by simp [JQ.ble])]
        rw [if_neg (by simp [hop])]
        rw [if_pos (show d = 0 ∨ JQ.blt (JQ.fin d) JQ.inf = true from Or.inr rfl)]
        exact getD_set_self _ _ _ hidx
      | fin sq =>
        by_cases hle : sq ≤ d
        · rw [if_pos ⟨hd, (JQ_ble_fin_iff sq d).mpr hle⟩]
          rw [if_neg (by
            rintro (h | h)
            · exact hd h
            · exact absurd ((JQ_blt_fin_iff d sq).mp h) (not_lt.mpr hle))]
          exact hst
        · rw [if_neg (by
            rintro ⟨-, hb⟩
            exact hle ((JQ_ble_fin_iff sq d).mp hb))]
          rw [if_neg (by simp [hop])]
          rw [if_pos (Or.inr ((JQ_blt_fin_iff d sq).mpr (not_le.mp hle)))]
          exact getD_set_self _ _ _ hidx
  · unfold fcPixel
    dsimp only
    rw [hst]
    cases st with
    | inf =>
      rw [if_neg (by simp [JQ.ble])]
      rw [if_pos (show JQ.blt (JQ.fin rowD) JQ.inf = true from rfl)]
      exact getD_set_self _ _ _ hidx
    | fin sq =>
      by_cases hle : sq ≤ rowD
      · rw [if_pos ((JQ_ble_fin_iff sq rowD).mpr hle)]
        rw [if_neg (by
          intro h
          exact absurd ((JQ_blt_fin_iff rowD sq).mp h) (not_lt.mpr hle))]
        exact hst
      · rw [if_neg (by
          intro hb
          exact hle ((JQ_ble_fin_iff sq rowD).mp hb))]
        rw [if_pos ((JQ_blt_fin_iff rowD sq).mpr (not_le.mp hle))]
        exact getD_set_self _ _ _ hidx

/-- Witness for claim C6's amended theorem on a one-pixel screen with
stored depth 5, incoming wall depth 3 and floor row distance 2. -/
theorem depth_arbitration_conditions_witness :
    ((drawColoredColumnPixel c6wscreen 0 ⟨1, 1, 1, 255⟩ 3 ⟨1, 1, 1⟩ 0).depthBuffer.getD
        (0 + 0 * c6wscreen.renderWidth) JQ.inf =
      if (3 : ℚ) = 0 ∨ JQ.ble (JQ.fin 3)
          (c6wscreen.depthBuffer.getD (0 + 0 * c6wscreen.renderWidth) JQ.inf) = true
      then JQ.fin 3
      else c6wscreen.depthBuffer.getD (0 + 0 * c6wscreen.renderWidth) JQ.inf) ∧
    ((drawTexturedColumnPixel 0 c6wtex 0 3 ⟨1, 1, 1⟩ 1 (c6wscreen, 0) 0).1.depthBuffer.getD
        (0 + 0 * c6wscreen.renderWidth) JQ.inf =
      if (3 : ℚ) = 0 ∨ JQ.blt (JQ.fin 3)
          (c6wscreen.depthBuffer.getD (0 + 0 * c6wscreen.renderWidth) JQ.inf) = true
      then JQ.fin 3
      else c6wscreen.depthBuffer.getD (0 + 0 * c6wscreen.renderWidth) JQ.inf) ∧
    ((fcPixel 0 ⟨.color ⟨1, 1, 1, 255⟩, 1, 1, 1⟩ 2 ⟨1, 1, 1⟩ 0 0 (c6wscreen, 0, 0) 0).1.depthBuffer.getD
        (0 + 0 * c6wscreen.renderWidth) JQ.inf =
      if JQ.blt (JQ.fin 2)
          (c6wscreen.depthBuffer.getD (0 + 0 * c6wscreen.renderWidth) JQ.inf) = true
      then JQ.fin 2
      else c6wscreen.depthBuffer.getD (0 + 0 * c6wscreen.renderWidth) JQ.inf) :=
  depth_arbitration_conditions c6wscreen 0 0 ⟨1, 1, 1, 255⟩ c6wtex 0 3 2 0 1 0 0 0 0
    ⟨1, 1, 1⟩ ⟨.color ⟨1, 1, 1, 255⟩, 1, 1, 1⟩ (by decide)
    (by norm_num [texPix, c6wtex]; decide)

/-- Claim C5: every worldMap.data read performed by the DDA loop of
Ray.cast happens at map coordinates inside [0, width) x [0, height): the
loop checks the bounds and breaks before any out-of-range access, from any
starting state. -/
theorem cast_reads_within_bounds (w : WorldMap) (fuel : ℕ) (s : RayState)
    (p : ℤ × ℤ) (hp : p ∈ (castLoop w fuel s).2) :
    0 ≤ p.1 ∧ p.1 < (w.width : ℤ) ∧ 0 ≤ p.2 ∧ p.2 < (w.height : ℤ) := by
  induction fuel generalizing s with
  | zero => simp [castLoop] at hp
  | succ n ih =>
    rw [castLoop] at hp
    by_cases hh : s.hit ≠ 0
    · rw [if_pos hh] at hp
      simp at hp
    · rw [if_neg hh] at hp
      dsimp only at hp
      by_cases hb : (castStep s).mapX < 0 ∨ (castStep s).mapY < 0 ∨
          (w.width : ℤ) ≤ (castStep s).mapX ∨ (w.height : ℤ) ≤ (castStep s).mapY
      · rw [if_pos hb] at hp
        simp at hp
      · rw [if_neg hb] at hp
        push_neg at hb
        simp only [List.mem_cons] at hp
        rcases hp with hp | hp
        · subst hp
          exact ⟨hb.1, hb.2.2.1, hb.2.1, hb.2.2.2⟩
        · exact ih _ hp

/-- Witness for claim C5's theorem: a ray cast through an empty 2 by 2 map
reads exactly the in-bounds cell (1, 0). -/
theorem cast_reads_within_bounds_witness :
    ((1 : ℤ), (0 : ℤ)) ∈ (castLoop c5w 2 c5s).2 ∧
    (0 ≤ (1 : ℤ) ∧ (1 : ℤ) < (c5w.width : ℤ) ∧ 0 ≤ (0 : ℤ) ∧ (0 : ℤ) < (c5w.height : ℤ)) :=
  ⟨by norm_num [castLoop, castStep, castFinish, c5w, c5s, rayInit, jsAbsDiv,
      JQ.scale, JQ.blt, JQ.add],
   cast_reads_within_bounds c5w 2 c5s ((1 : ℤ), (0 : ℤ))
    (by norm_num [castLoop, castStep, castFinish, c5w, c5s, rayInit, jsAbsDiv,
      JQ.scale, JQ.blt, JQ.add])⟩

/-- Ray.init establishes the DDA invariant (for rayLength 1). -/
theorem rayInv_init (posX posY dirX dirY : ℚ) :
    RayInv posX posY dirX dirY (rayInit posX posY dirX dirY 1) := by
  unfold RayInv rayInit
  dsimp only
  refine ⟨rfl, rfl, rfl, rfl, ?_, ?_⟩
  · by_cases h0 : dirX = 0
    · rw [if_pos h0, if_neg (by rw [h0]; exact lt_irrefl 0)]
      rw [show jsAbsDiv 1 dirX = JQ.inf from by rw [jsAbsDiv, if_pos h0]]
      rfl
    · rw [if_neg h0]
      rw [show jsAbsDiv 1 dirX = JQ.fin |1 / dirX| from by rw [jsAbsDiv, if_neg h0]]
      by_cases hneg : dirX < 0
      · rw [if_pos hneg, JQ.scale, nextGrid, if_pos hneg]
        rw [abs_of_neg (one_div_neg.mpr hneg)]
        congr 1
        field_simp
        rw [Int.fract]
        ring
      · rw [if_neg hneg, JQ.scale, nextGrid, if_neg hneg]
        have hpos : 0 < dirX := lt_of_le_of_ne (not_lt.mp hneg) (Ne.symm h0)
        rw [abs_of_pos (one_div_pos.mpr hpos)]
        congr 1
        push_cast
        field_simp
  · by_cases h0 : dirY = 0
    · rw [if_pos h0, if_neg (by rw [h0]; exact lt_irrefl 0)]
      rw [show jsAbsDiv 1 dirY = JQ.inf from by rw [jsAbsDiv, if_pos h0]]
      rfl
    · rw [if_neg h0]
      rw [show jsAbsDiv 1 dirY = JQ.fin |1 / dirY| from by rw [jsAbsDiv, if_neg h0]]
      by_cases hneg : dirY < 0
      · rw [if_pos hneg, JQ.scale, nextGrid, if_pos hneg]
        rw [abs_of_neg (one_div_neg.mpr hneg)]
        congr 1
        field_simp
        rw [Int.fract]
        ring
      · rw [if_neg hneg, JQ.scale, nextGrid, if_neg hneg]
        have hpos : 0 < dirY := lt_of_le_of_ne (not_lt.mp hneg) (Ne.symm h0)
        rw [abs_of_pos (one_div_pos.mpr hpos)]
        congr 1
        push_cast
        field_simp

/-- The DDA step preserves the invariant. -/
theorem rayInv_castStep (posX posY dirX dirY : ℚ) (s : RayState)
    (h : RayInv posX posY dirX dirY s) :
    RayInv posX posY dirX dirY (castStep s) := by
  obtain ⟨h1, h2, h3, h4, h5, h6⟩ := h
  unfold castStep
  by_cases hblt : JQ.blt s.sideDistY s.sideDistX = true
  · rw [if_pos hblt]
    refine ⟨h1, h2, h3, h4, h5, ?_⟩
    by_cases h0 : dirY = 0
    · rw [if_pos h0]
      rw [if_pos h0] at h6
      rw [h6, h4, show jsAbsDiv 1 dirY = JQ.inf from by rw [jsAbsDiv, if_pos h0]]
      rfl
    · rw [if_neg h0]
      rw [if_neg h0] at h6
      rw [h6, h4, show jsAbsDiv 1 dirY = JQ.fin |1 / dirY| from by
        rw [jsAbsDiv, if_neg h0], h2, JQ.add]
      by_cases hneg : dirY < 0
      · rw [if_pos hneg]
        rw [abs_of_neg (one_div_neg.mpr hneg)]
        unfold nextGrid
        rw [if_pos hneg, if_pos hneg]
        push_cast
        field_simp
        ring
      · rw [if_neg hneg]
        have hpos : 0 < dirY := lt_of_le_of_ne (not_lt.mp hneg) (Ne.symm h0)
        rw [abs_of_pos (one_div_pos.mpr hpos)]
        unfold nextGrid
        rw [if_neg hneg, if_neg hneg]
        push_cast
        field_simp
        ring
  · rw [if_neg hblt]
    refine ⟨h1, h2, h3, h4, ?_, h6⟩
    by_cases h0 : dirX = 0
    · rw [if_pos h0]
      rw [if_pos h0] at h5
      rw [h5, h3, show jsAbsDiv 1 dirX = JQ.inf from by rw [jsAbsDiv, if_pos h0]]
      rfl
    · rw [if_neg h0]
      rw [if_neg h0] at h5
      rw [h5, h3, show jsAbsDiv 1 dirX = JQ.fin |1 / dirX| from by
        rw [jsAbsDiv, if_neg h0], h1, JQ.add]
      by_cases hneg : dirX < 0
      · rw [if_pos hneg]
        rw [abs_of_neg (one_div_neg.mpr hneg)]
        unfold nextGrid
        rw [if_pos hneg, if_pos hneg]
        push_cast
        field_simp
        ring
      · rw [if_neg hneg]
        have hpos : 0 < dirX := lt_of_le_of_ne (not_lt.mp hneg) (Ne.symm h0)
        rw [abs_of_pos (one_div_pos.mpr hpos)]
        unfold nextGrid
        rw [if_neg hneg, if_neg hneg]
        push_cast
        field_simp
        ring

/-- Updating the hit field does not disturb the invariant. -/
theorem rayInv_hit_update (posX posY dirX dirY : ℚ) (s : RayState) (hv : ℕ)
    (h : RayInv posX posY dirX dirY s) :
    RayInv posX posY dirX dirY { s with hit := hv } := h

/-- The side the DDA step selects, with the direction components it
implies under the invariant: side 1 is chosen only when the y axis advances
(finite y side distance, so dirY is nonzero); side 0 with a zero dirX forces
dirY to be zero as well. -/
theorem castStep_side (posX posY dirX dirY : ℚ) (s : RayState)
    (h : RayInv posX posY dirX dirY s) :
    ((castStep s).side = 0 ∨ (castStep s).side = 1) ∧
    ((castStep s).side = 0 → (dirX = 0 → dirY = 0)) ∧
    ((castStep s).side = 1 → dirY ≠ 0) := by
  obtain ⟨h1, h2, h3, h4, h5, h6⟩ := h
  unfold castStep
  by_cases hblt : JQ.blt s.sideDistY s.sideDistX = true
  · rw [if_pos hblt]
    refine ⟨Or.inr rfl, ?_, ?_⟩
    · intro h01
      exact absurd h01 one_ne_zero
    · intro _ h0
      rw [if_pos h0] at h6
      rw [h6] at hblt
      simp [JQ.blt] at hblt
  · rw [if_neg hblt]
    refine ⟨Or.inl rfl, ?_, ?_⟩
    · intro _ h0
      by_contra hy
      rw [if_pos h0] at h5
      rw [if_neg hy] at h6
      rw [h5, h6] at hblt
      simp [JQ.blt] at hblt
    · intro h10
      exact absurd h10 zero_ne_one

/-- castFinish changes only distance and face. -/
theorem castFinish_fields (s : RayState) :
    (castFinish s).hit = s.hit ∧ (castFinish s).side = s.side ∧
    (castFinish s).mapX = s.mapX ∧ (castFinish s).mapY = s.mapY := by
  unfold castFinish
  by_cases h : s.side = 0
  · rw [if_pos h]
    exact ⟨rfl, rfl, rfl, rfl⟩
  · rw [if_neg h]
    exact ⟨rfl, rfl, rfl, rfl⟩

/-- If the DDA loop terminates with a nonzero hit, the final state is
castFinish of a state that satisfies the invariant, whose side records the
axis of the last step taken. -/
theorem castLoop_spec (w : WorldMap) (posX posY dirX dirY : ℚ) :
    ∀ (fuel : ℕ) (s r : RayState) (tr : List (ℤ × ℤ)),
    RayInv posX posY dirX dirY s →
    castLoop w fuel s = (some r, tr) → r.hit ≠ 0 →
    (s.hit ≠ 0 ∧ r = castFinish s) ∨
    (∃ s2, r = castFinish s2 ∧ RayInv posX posY dirX dirY s2 ∧ s2.hit ≠ 0 ∧
      (s2.side = 0 ∨ s2.side = 1) ∧
      (s2.side = 0 → (dirX = 0 → dirY = 0)) ∧
      (s2.side = 1 → dirY ≠ 0)) := by
  intro fuel
  induction fuel with
  | zero =>
    intro s r tr _ hrun _
    exact absurd (congrArg Prod.fst hrun) (by simp [castLoop])
  | succ n ih =>
    intro s r tr hinv hrun hr
    rw [castLoop] at hrun
    by_cases hh : s.hit ≠ 0
    · rw [if_pos hh] at hrun
      exact Or.inl ⟨hh, (Option.some.inj (congrArg Prod.fst hrun)).symm⟩
    · rw [if_neg hh] at hrun
      push_neg at hh
      have hinv1 := rayInv_castStep posX posY dirX dirY s hinv
      have hside := castStep_side posX posY dirX dirY s hinv
      by_cases hb : (castStep s).mapX < 0 ∨ (castStep s).mapY < 0 ∨
          (w.width : ℤ) ≤ (castStep s).mapX ∨ (w.height : ℤ) ≤ (castStep s).mapY
      · rw [if_pos hb] at hrun
        have hreq : r = castFinish (castStep s) :=
          (Option.some.inj (congrArg Prod.fst hrun)).symm
        have : r.hit = 0 := by
          rw [hreq, (castFinish_fields (castStep s)).1]
          have : (castStep s).hit = s.hit := by
            unfold castStep
            by_cases hx : JQ.blt s.sideDistY s.sideDistX = true
            · rw [if_pos hx]
            · rw [if_neg hx]
          rw [this, hh]
        exact absurd this hr
      · rw [if_neg hb] at hrun
        have h1 : (castLoop w n { castStep s with
            hit := w.data.getD ((castStep s).mapX + (castStep s).mapY * (w.width : ℤ)).toNat 0 }).1
            = some r := congrArg Prod.fst hrun
        have hloop : castLoop w n { castStep s with
            hit := w.data.getD ((castStep s).mapX + (castStep s).mapY * (w.width : ℤ)).toNat 0 }
            = (some r, (castLoop w n { castStep s with
            hit := w.data.getD ((castStep s).mapX + (castStep s).mapY * (w.width : ℤ)).toNat 0 }).2) :=
          Prod.ext h1 rfl
        have hinv2 := rayInv_hit_update posX posY dirX dirY (castStep s)
          (w.data.getD ((castStep s).mapX + (castStep s).mapY * (w.width : ℤ)).toNat 0) hinv1
        rcases ih _ r _ hinv2 hloop hr with ⟨hhit2, hreq⟩ | ⟨s3, hs3⟩
        · refine Or.inr ⟨_, hreq, hinv2, hhit2, ?_, ?_, ?_⟩
          · exact hside.1
          · exact hside.2.1
          · exact hside.2.2
        · exact Or.inr ⟨s3, hs3⟩

/-- The camera-space depth of a point reached by travelling t along a ray
whose direction is direction * focalLength + plane * aspect * cameraX is t
itself: the lateral plane component cancels out of the transform. -/
theorem perpDistTo_raydir (camera : Camera) (aspect cameraX t : ℚ)
    (hdet : camera.planeX * aspect / 2 * (camera.dirY * camera.focalLength) -
      camera.dirX * camera.focalLength * camera.planeY * aspect / 2 ≠ 0) :
    perpDistTo camera aspect
      (camera.posX + t * (camera.dirX * camera.focalLength + camera.planeX * aspect * cameraX))
      (camera.posY + t * (camera.dirY * camera.focalLength + camera.planeY * aspect * cameraX))
      = t := by
  unfold perpDistTo cameraSpaceDepth
  dsimp only
  rw [one_div_mul_eq_div, div_eq_iff hdet]
  ring

/-- Claim C4: when the wall-pass ray (direction * focalLength +
plane * aspect * cameraX, rayLength 1) is cast and stops with a nonzero hit,
the distance it reports (sideDist minus deltaDist on the hit side) is the
perpendicular camera-space distance of the point where the ray meets the
hit grid line, and that point does lie on an integer grid line of the hit
axis. -/
theorem ray_distance_is_perpendicular
    (w : WorldMap) (camera : Camera) (aspect cameraX : ℚ) (fuel : ℕ)
    (rdX rdY : ℚ) (r : RayState) (tr : List (ℤ × ℤ))
    (hrdX : rdX = camera.dirX * camera.focalLength + camera.planeX * aspect * cameraX)
    (hrdY : rdY = camera.dirY * camera.focalLength + camera.planeY * aspect * cameraX)
    (hnd : ¬(rdX = 0 ∧ rdY = 0))
    (hdet : camera.planeX * aspect / 2 * (camera.dirY * camera.focalLength) -
      camera.dirX * camera.focalLength * camera.planeY * aspect / 2 ≠ 0)
    (hrun : cast w fuel (rayInit camera.posX camera.posY rdX rdY 1) = (some r, tr))
    (hhit : r.hit ≠ 0) :
    ∃ t : ℚ, r.distance = JQ.fin t ∧
      perpDistTo camera aspect (camera.posX + t * rdX) (camera.posY + t * rdY) = t ∧
      (r.side = 0 → camera.posX + t * rdX = ((hitLine rdX r.mapX : ℤ) : ℚ)) ∧
      (r.side = 1 → camera.posY + t * rdY = ((hitLine rdY r.mapY : ℤ) : ℚ)) := by
  unfold cast at hrun
  have hinv0 : RayInv camera.posX camera.posY rdX rdY
      { rayInit camera.posX camera.posY rdX rdY 1 with hit := 0 } :=
    rayInv_hit_update camera.posX camera.posY rdX rdY _ 0
      (rayInv_init camera.posX camera.posY rdX rdY)
  rcases castLoop_spec w camera.posX camera.posY rdX rdY fuel _ r tr hinv0 hrun hhit with
    ⟨hne, -⟩ | ⟨s2, hreq, hinv, -, hside01, hs0, hs1⟩
  · exact absurd rfl hne
  obtain ⟨h1, h2, h3, h4, h5, h6⟩ := hinv
  obtain ⟨hfhit, hfside, hfmx, hfmy⟩ := castFinish_fields s2
  rcases hside01 with hz | ho
  · have hdx : rdX ≠ 0 := fun h0 => hnd ⟨h0, hs0 hz h0⟩
    have hrside : r.side = 0 := by rw [hreq, hfside, hz]
    have hrmx : r.mapX = s2.mapX := by rw [hreq, hfmx]
    have hdist : r.distance = JQ.sub s2.sideDistX s2.deltaDistX := by
      rw [hreq]
      unfold castFinish
      rw [if_pos hz]
    rw [if_neg hdx] at h5
    have hdel : s2.deltaDistX = JQ.fin |1 / rdX| := by
      rw [h3, jsAbsDiv, if_neg hdx]
    have hdq : (((nextGrid rdX s2.mapX : ℤ) : ℚ) - camera.posX) / rdX - |1 / rdX| =
        (((hitLine rdX s2.mapX : ℤ) : ℚ) - camera.posX) / rdX := by
      by_cases hneg : rdX < 0
      · rw [abs_of_neg (one_div_neg.mpr hneg)]
        unfold nextGrid hitLine
        rw [if_pos hneg, if_pos hneg]
        push_cast
        field_simp
        ring
      · have hpos : 0 < rdX := lt_of_le_of_ne (not_lt.mp hneg) (Ne.symm hdx)
        rw [abs_of_pos (one_div_pos.mpr hpos)]
        unfold nextGrid hitLine
        rw [if_neg hneg, if_neg hneg]
        push_cast
        field_simp
        ring
    refine ⟨(((hitLine rdX s2.mapX : ℤ) : ℚ) - camera.posX) / rdX, ?_, ?_, ?_, ?_⟩
    · rw [hdist, h5, hdel, JQ.sub]
      exact congrArg JQ.fin hdq
    · rw [hrdX, hrdY]
      exact perpDistTo_raydir camera aspect cameraX _ hdet
    · intro _
      rw [hrmx, div_mul_cancel₀ _ hdx]
      ring
    · intro hcontra
      rw [hrside] at hcontra
      exact absurd hcontra (by decide)
  · have hdy : rdY ≠ 0 := hs1 ho
    have hrside : r.side = 1 := by rw [hreq, hfside, ho]
    have hrmy : r.mapY = s2.mapY := by rw [hreq, hfmy]
    have hdist : r.distance = JQ.sub s2.sideDistY s2.deltaDistY := by
      rw [hreq]
      unfold castFinish
      rw [if_neg (by rw [ho]; exact one_ne_zero)]
    rw [if_neg hdy] at h6
    have hdel : s2.deltaDistY = JQ.fin |1 / rdY| := by
      rw [h4, jsAbsDiv, if_neg hdy]
    have hdq : (((nextGrid rdY s2.mapY : ℤ) : ℚ) - camera.posY) / rdY - |1 / rdY| =
        (((hitLine rdY s2.mapY : ℤ) : ℚ) - camera.posY) / rdY := by
      by_cases hneg : rdY < 0
      · rw [abs_of_neg (one_div_neg.mpr hneg)]
        unfold nextGrid hitLine
        rw [if_pos hneg, if_pos hneg]
        push_cast
        field_simp
        ring
      · have hpos : 0 < rdY := lt_of_le_of_ne (not_lt.mp hneg) (Ne.symm hdy)
        rw [abs_of_pos (one_div_pos.mpr hpos)]
        unfold nextGrid hitLine
        rw [if_neg hneg, if_neg hneg]
        push_cast
        field_simp
        ring
    refine ⟨(((hitLine rdY s2.mapY : ℤ) : ℚ) - camera.posY) / rdY, ?_, ?_, ?_, ?_⟩
    · rw [hdist, h6, hdel, JQ.sub]
      exact congrArg JQ.fin hdq
    · rw [hrdX, hrdY]
      exact perpDistTo_raydir camera aspect cameraX _ hdet
    · intro hcontra
      rw [hrside] at hcontra
      exact absurd hcontra (by decide)
    · intro _
      rw [hrmy, div_mul_cancel₀ _ hdy]
      ring

/-- Witness for claim C4's theorem: the center ray of the c4 camera hits the
wall cell one cell ahead at perpendicular distance one half. -/
theorem ray_distance_is_perpendicular_witness :
    ∃ t : ℚ, c4r.distance = JQ.fin t ∧
      perpDistTo c4camera 1 (c4camera.posX + t * 0) (c4camera.posY + t * 1) = t ∧
      (c4r.side = 0 → c4camera.posX + t * 0 = ((hitLine 0 c4r.mapX : ℤ) : ℚ)) ∧
      (c4r.side = 1 → c4camera.posY + t * 1 = ((hitLine 1 c4r.mapY : ℤ) : ℚ)) :=
  ray_distance_is_perpendicular c4w c4camera 1 0 2 0 1 c4r [(0, 1)]
    (by norm_num [c4camera])
    (by norm_num [c4camera])
    (by norm_num)
    (by norm_num [c4camera])
    (by norm_num [cast, castLoop, castStep, castFinish, rayInit, c4w, c4camera,
      c4r, jsAbsDiv, JQ.scale, JQ.blt, JQ.add, JQ.sub])
    (by norm_num [c4r])

end Pseudo3d
